import Mathlib

/-!
Shallow embedding of `applications/multisite/intersite.py` (the intersite
reconciliation engine of the acitoolkit repository), together with proofs
about the embedded definitions.

Python strings are modelled as lists of characters (`PStr`), so that the
string surgery performed by the source (`str.split`, `str.rpartition`,
concatenation) can be given a direct recursive definition.  Python `None`
becomes `Option`, a raised `AssertionError` becomes `Except.error`, and the
nested JSON dictionaries manipulated by the endpoint handler become
structures holding exactly the fields the source reads and writes.
-/

namespace Intersite

/-- A Python string, modelled as its list of characters. -/
abbrev PStr := List Char

/-- Convenience conversion from a Lean string literal to `PStr`. -/
def ps (s : String) : PStr := s.data

/-- Python `s.split(sep)` for a one-character separator: always returns a
non-empty list of (possibly empty) fields; splitting the empty string
yields a list holding one empty field. -/
def pySplit (sep : Char) : PStr → List PStr
  | [] => [[]]
  | c :: rest =>
    if c = sep then [] :: pySplit sep rest
    else
      match pySplit sep rest with
      | r :: rs => (c :: r) :: rs
      | [] => [[c]]

/-- Python `s.rpartition(sep)[-1]`: the suffix after the last occurrence of
`sep`, or the whole string when `sep` does not occur. -/
def rpartLast (sep : Char) (s : PStr) : PStr :=
  ((s.reverse.takeWhile (fun c => c ≠ sep)).reverse)

/--
Embeds `IntersiteTag.__init__`: the 4-tuple (tenant, app, epg, remote
site) stored by the provenance tag.
-/
structure IntersiteTag where
  tenant_name : PStr
  app_name : PStr
  epg_name : PStr
  remote_site : PStr
deriving DecidableEq, Repr

/--
Embeds `IntersiteTag.is_intersite_tag`: the source evaluates a
`re.match` against the pattern `isite:.*:.*:.*:.*`, so the string must
begin with `isite:` and the remainder must contain at least three further
`:` characters (each `.*` may match anything, colons and the empty string
included, and `re.match` leaves the tail of the string unconstrained).
Equivalently: splitting on `:` yields at least five fields, the first
being `isite`.
-/
def is_intersite_tag (tag : PStr) : Bool :=
  decide (5 ≤ (pySplit ':' tag).length) &&
    decide ((pySplit ':' tag).headI = ps "isite")

/--
Embeds `IntersiteTag.fromstring`: when `is_intersite_tag` fails, the source
executes `assert cls.is_intersite_tag(tag)` inside the `not` branch, so the
assertion always fails there and an `AssertionError` propagates (the
`return None` after it is unreachable); modelled as `Except.error ()`.
Otherwise the string is split on `:` and fields 1..4 become the tag.
-/
def fromstring (tag : PStr) : Except Unit IntersiteTag :=
  if ¬ is_intersite_tag tag then Except.error ()
  else
    let tag_data := pySplit ':' tag
    Except.ok { tenant_name := tag_data.getD 1 []
                app_name := tag_data.getD 2 []
                epg_name := tag_data.getD 3 []
                remote_site := tag_data.getD 4 [] }

/-- Embeds `IntersiteTag.__str__`: the concatenation
`isite` + `:` + tenant + `:` + app + `:` + epg + `:` + remote_site. -/
def tagToString (t : IntersiteTag) : PStr :=
  ps "isite" ++ ':' :: t.tenant_name ++ ':' :: t.app_name ++
    ':' :: t.epg_name ++ ':' :: t.remote_site

/-! ## Export-policy model (`ExportPolicy` and its sub-policies)

The configuration objects of the source wrap raw dictionaries and rebuild
their sub-policy objects on every accessor call; semantically each is a
record of the fields the accessors expose, which is how they are embedded
here. -/

/-- Embeds `L3OutPolicy`: an outbound interface with its owning tenant and
the four binding lists (each entry reduced to the single name its policy
class exposes: `contract_name`, `taboo_name`, `cif_name`). -/
structure L3OutPolicy where
  name : PStr
  tenant : PStr
  provides : List PStr
  consumes : List PStr
  protected_by : List PStr
  consumes_interface : List PStr
deriving DecidableEq, Repr

/-- Embeds `RemoteSitePolicy`: a remote site name plus its interfaces. -/
structure RemoteSitePolicy where
  name : PStr
  interfaces : List L3OutPolicy
deriving DecidableEq, Repr

/-- Embeds `ExportPolicy`: the exported (tenant, app, epg) scope plus the
remote-site policies. -/
structure ExportPolicy where
  tenant : PStr
  app : PStr
  epg : PStr
  remote_sites : List RemoteSitePolicy
deriving DecidableEq, Repr

/-- Embeds the loop shape shared by `ExportPolicy.provides` /
`consumes` / `protected_by` / `consumes_cif`: the source iterates the
binding list but returns from inside the first iteration in both branches
(`return True` when the first entry matches, `return False` otherwise), so
only the head of the list is ever examined; an empty list falls through
and returns `None`, which the callers use as a falsy value. -/
def firstEntryMatches (xs : List PStr) (n : PStr) : Bool :=
  match xs with
  | [] => false
  | x :: _ => x = n

/-- Embeds `ExportPolicy._get_l3out_policy`: scans the remote-site
policies; inside each site whose name matches it returns the first
interface matching both the l3out name and tenant, and otherwise keeps
scanning the remaining sites. -/
def findL3OutIn : List RemoteSitePolicy → PStr → PStr → PStr → Option L3OutPolicy
  | [], _, _, _ => none
  | s :: rest, sn, ln, lt =>
    if s.name = sn then
      match s.interfaces.find? (fun l => decide (l.name = ln) && decide (l.tenant = lt)) with
      | some l => some l
      | none => findL3OutIn rest sn ln lt
    else findL3OutIn rest sn ln lt

/-- Embeds `ExportPolicy.provides`. -/
def ExportPolicy.provides (p : ExportPolicy)
    (site_name l3out_name l3out_tenant contract_name : PStr) : Bool :=
  match findL3OutIn p.remote_sites site_name l3out_name l3out_tenant with
  | none => false
  | some l3out => firstEntryMatches l3out.provides contract_name

/-- Embeds `ExportPolicy.consumes`. -/
def ExportPolicy.consumes (p : ExportPolicy)
    (site_name l3out_name l3out_tenant contract_name : PStr) : Bool :=
  match findL3OutIn p.remote_sites site_name l3out_name l3out_tenant with
  | none => false
  | some l3out => firstEntryMatches l3out.consumes contract_name

/-- Embeds `ExportPolicy.protected_by`. -/
def ExportPolicy.protectedBy (p : ExportPolicy)
    (site_name l3out_name l3out_tenant taboo_name : PStr) : Bool :=
  match findL3OutIn p.remote_sites site_name l3out_name l3out_tenant with
  | none => false
  | some l3out => firstEntryMatches l3out.protected_by taboo_name

/-- Embeds `ExportPolicy.consumes_cif`. -/
def ExportPolicy.consumesCif (p : ExportPolicy)
    (site_name l3out_name l3out_tenant cif_name : PStr) : Bool :=
  match findL3OutIn p.remote_sites site_name l3out_name l3out_tenant with
  | none => false
  | some l3out => firstEntryMatches l3out.consumes_interface cif_name

/-- Embeds `ExportPolicy.has_same_epg`: scope comparison by
(tenant, app, epg) only. -/
def has_same_epg (a b : ExportPolicy) : Bool :=
  decide (a.tenant = b.tenant) && decide (a.app = b.app) && decide (a.epg = b.epg)

/-! ## The verification pass of `MultisiteMonitor.verify_endpoints`

The remote query results are external inputs; what is embedded is the
in-place child-marking loop the source runs on each fetched
`l3extInstP` entry (lines 314-345), with the entry children modelled as
the four binding classes the source inspects plus a catch-all for children
of any other class (which the `elif` chain skips). -/

/-- A child of a fetched instance profile: one of the four binding classes
the verification loop inspects (carrying its target name and its `status`
attribute) or some other, ignored class. -/
inductive RChild where
  | prov (name : PStr) (status : Option PStr)
  | cons (name : PStr) (status : Option PStr)
  | protBy (name : PStr) (status : Option PStr)
  | consIf (name : PStr) (status : Option PStr)
  | other
deriving DecidableEq, Repr

/-- Embeds one iteration of the child loop of `verify_endpoints`: an
authorized binding is left untouched, an unauthorized one has its status
set to `deleted` in place; the returned flag reports whether this child
made the entry dirty. -/
def verifyChild (p : ExportPolicy) (site_name l3out_name l3out_tenant : PStr) :
    RChild → RChild × Bool
  | RChild.prov n st =>
    if p.provides site_name l3out_name l3out_tenant n then (RChild.prov n st, false)
    else (RChild.prov n (some (ps "deleted")), true)
  | RChild.cons n st =>
    if p.consumes site_name l3out_name l3out_tenant n then (RChild.cons n st, false)
    else (RChild.cons n (some (ps "deleted")), true)
  | RChild.protBy n st =>
    if p.protectedBy site_name l3out_name l3out_tenant n then (RChild.protBy n st, false)
    else (RChild.protBy n (some (ps "deleted")), true)
  | RChild.consIf n st =>
    if p.consumesCif site_name l3out_name l3out_tenant n then (RChild.consIf n st, false)
    else (RChild.consIf n (some (ps "deleted")), true)
  | RChild.other => (RChild.other, false)

/-- Embeds the per-entry part of `verify_endpoints`: every child is
checked and marked in place, and the entry is dirty when any child was
marked; dirty entries (and only those) are pushed back. -/
def verifyEntry (p : ExportPolicy) (site_name l3out_name l3out_tenant : PStr)
    (children : List RChild) : List RChild × Bool :=
  let marked := children.map (verifyChild p site_name l3out_name l3out_tenant)
  (marked.map Prod.fst, marked.any Prod.snd)

/-! ## Site policies, runtime sites and the reload site-diff -/

/-- Embeds `SitePolicy`: the per-site configuration entry.  The source
field named `local` is embedded as `site_local` (`local` is a Lean
keyword); `site_local` and `use_https` hold the configuration strings
(expected to be `True` or `False`). -/
structure SitePolicy where
  name : PStr
  ip_address : PStr
  username : PStr
  password : PStr
  site_local : PStr
  use_https : PStr
deriving DecidableEq, Repr

/-- Embeds `SitePolicy.__eq__`: full-field comparison of username,
ip_address, password, local and use_https — the `name` field is *not*
compared. -/
def sitePolicyEq (a b : SitePolicy) : Bool :=
  decide (a.username = b.username) && decide (a.ip_address = b.ip_address) &&
    decide (a.password = b.password) && decide (a.site_local = b.site_local) &&
    decide (a.use_https = b.use_https)

/-- Embeds the runtime `Site` object (`LocalSite` / `RemoteSite` are told
apart by the `site_local` flag).  The session handle and the monitor
thread are omitted: they do not affect membership of the collector site
list, which is what the embedded operations manipulate. -/
structure Site where
  name : PStr
  site_local : Bool
  ip_address : PStr
  username : PStr
  password : PStr
  use_https : Bool
deriving DecidableEq, Repr

/-- Python `list.remove(x)` generalized over the equality test in use:
removes the first element satisfying `p` (the source relies on
`Site.__eq__`, which compares names only, and on dictionary equality for
JSON objects).  On a list with no such element the source would raise
`ValueError`; the embedding returns the list unchanged, and every use
below removes an element just found in the list. -/
def pyRemoveP {α : Type} (p : α → Bool) : List α → List α
  | [] => []
  | y :: rest => if p y then rest else y :: pyRemoveP p rest

/-- Embeds the loop of `MultisiteCollector.delete_site`, which removes
elements of the list it is iterating: Python list iterators advance by
index, so after a removal the element following the removed one is
skipped.  The index-based recursion reproduces that; `fuel` bounds the
iteration count (the loop runs at most `sites.length` times since the
index grows by one per iteration and the list never grows). -/
def delete_site_loop (name : PStr) (sites : List Site) (i fuel : Nat) : List Site :=
  match fuel with
  | 0 => sites
  | fuel + 1 =>
    match sites[i]? with
    | none => sites
    | some s =>
      if s.name = name then
        delete_site_loop name (pyRemoveP (fun t => decide (t.name = s.name)) sites) (i + 1) fuel
      else
        delete_site_loop name sites (i + 1) fuel

/-- Embeds `MultisiteCollector.delete_site`. -/
def delete_site (name : PStr) (sites : List Site) : List Site :=
  delete_site_loop name sites 0 sites.length

/-- Embeds `MultisiteCollector.add_site`: any same-named site is deleted
first, then the new site is appended (`site.start()` performs the login
and does not change the site list, so it is omitted). -/
def add_site (name ip user pw : PStr) (https lcl : Bool) (sites : List Site) : List Site :=
  delete_site name sites ++
    [{ name := name, site_local := lcl, ip_address := ip, username := user,
       password := pw, use_https := https }]

/-- Embeds `MultisiteCollector.add_site_from_config`: the boolean fields
are the string comparisons with `True`. -/
def add_site_from_config (sp : SitePolicy) (sites : List Site) : List Site :=
  add_site sp.name sp.ip_address sp.username sp.password
    (sp.use_https = ps "True") (sp.site_local = ps "True") sites

/-- Embeds the site-adding loop of `initialize_tool`: every configured
site policy is added in order. -/
def load_sites (sps : List SitePolicy) (sites : List Site) : List Site :=
  sps.foldl (fun st sp => add_site_from_config sp st) sites

/-- State threaded through `MultisiteCollector._reload_sites`: the
collector site list plus the `added_local_site` flag. -/
structure ReloadState where
  sites : List Site
  added_local : Bool
deriving DecidableEq, Repr

/-- Embeds the inner loop of `_reload_sites` for one old site policy: the
outer condition compares the policies with `SitePolicy.__eq__` (which
ignores the name), and the nested changed-site branch re-tests the
negation of the very same comparison, so that branch can never run; it is
kept verbatim here.  Returns the state and the `found_site` flag. -/
def reload_sites_inner (old_site : SitePolicy) :
    List SitePolicy → ReloadState → ReloadState × Bool
  | [], st => (st, false)
  | new_site :: rest, st =>
    if sitePolicyEq new_site old_site then
      if ¬ (sitePolicyEq new_site old_site = true) then
        let st' : ReloadState :=
          { sites := add_site_from_config new_site (delete_site new_site.name st.sites),
            added_local := st.added_local || decide (new_site.site_local = ps "True") }
        reload_sites_inner old_site rest st'
      else (st, true)
    else reload_sites_inner old_site rest st

/-- Embeds the first loop of `_reload_sites`: every old site policy whose
configuration is not found among the new policies is torn down. -/
def reload_sites_old_loop :
    List SitePolicy → List SitePolicy → ReloadState → ReloadState
  | [], _, st => st
  | old_site :: rest, newps, st =>
    let r := reload_sites_inner old_site newps st
    let st' := if r.2 then r.1 else { r.1 with sites := delete_site old_site.name r.1.sites }
    reload_sites_old_loop rest newps st'

/-- Embeds the second loop of `_reload_sites`: every new site policy whose
*name* does not appear among the old policies is added. -/
def reload_sites_new_loop :
    List SitePolicy → List SitePolicy → ReloadState → ReloadState
  | [], _, st => st
  | new_site :: rest, oldps, st =>
    if oldps.any (fun o => decide (new_site.name = o.name)) then
      reload_sites_new_loop rest oldps st
    else
      let st' : ReloadState :=
        { sites := add_site_from_config new_site st.sites,
          added_local := st.added_local || decide (new_site.site_local = ps "True") }
      reload_sites_new_loop rest oldps st'

/-- Embeds `MultisiteCollector._reload_sites`: old-site pass, then
new-site pass; returns the final site list and `added_local_site`. -/
def reload_sites (oldps newps : List SitePolicy) (sites : List Site) :
    List Site × Bool :=
  let st := reload_sites_new_loop newps oldps
    (reload_sites_old_loop oldps newps { sites := sites, added_local := false })
  (st.sites, st.added_local)

/-- Embeds the per-site-policy field validation performed by
`IntersiteConfiguration.__init__` via `SitePolicy.validate`: each field is
checked in isolation (strings for name, username and password, an address
accepted by inet_aton, and the literal strings `True` / `False` for local
and use_https).  The address check is embedded as acceptance of a dotted
quad of decimal components below 256 — a subset of what the external
`socket.inet_aton` accepts, sufficient for every concrete configuration
used here.  No cross-site condition (in particular no bound on the number
of sites marked local) is checked anywhere in the constructor. -/
def valid_bool_string (s : PStr) : Bool :=
  decide (s = ps "True") || decide (s = ps "False")

/-- A decimal number between 0 and 255, written with at least one digit. -/
def valid_octet (s : PStr) : Bool :=
  decide (s ≠ []) && s.all (fun c => c.isDigit) && decide (s.length ≤ 3)

/-- Dotted-quad shape accepted by the embedded address check. -/
def valid_ip_address (s : PStr) : Bool :=
  match pySplit '.' s with
  | [a, b, c, d] => valid_octet a && valid_octet b && valid_octet c && valid_octet d
  | _ => false

/-- Field validation of one site policy (see `valid_ip_address`). -/
def site_policy_valid (sp : SitePolicy) : Bool :=
  valid_ip_address sp.ip_address && valid_bool_string sp.site_local &&
    valid_bool_string sp.use_https

/-- Embeds the validation applied to the site entries of a configuration
by `IntersiteConfiguration.__init__`: each entry is validated on its own. -/
def intersite_config_valid (sps : List SitePolicy) : Bool :=
  sps.all site_policy_valid

/-! ## The local-site policy registry and the reload policy-diff -/

/-- Embeds `LocalSite.get_policy_for_epg`: first registered policy with
the requested (tenant, app, epg) scope, if any. -/
def get_policy_for_epg (db : List ExportPolicy) (t a g : PStr) : Option ExportPolicy :=
  db.find? (fun p => decide (p.tenant = t) && decide (p.app = a) && decide (p.epg = g))

/-- Side effects of the reload policy-diff that matter to the claims:
seeding a policy (`monitor.handle_existing_endpoints`) and purging its
remote objects (`remove_all_entries_for_policy`). -/
inductive ReloadEvent where
  | seed (p : ExportPolicy)
  | purge (p : ExportPolicy)
deriving DecidableEq, Repr

/-- Embeds `LocalSite.add_policy`: an already-registered policy with the
same scope is removed, the new policy is appended if not present, and
`monitor.handle_existing_endpoints` runs for the new policy.  The source
compares registry entries by object identity (no `__eq__` on
`ExportPolicy`); structural equality coincides with it in every modelled
scenario, where registry entries are the distinct configuration objects. -/
def add_policy (db : List ExportPolicy) (p : ExportPolicy) :
    List ExportPolicy × List ReloadEvent :=
  let db1 := match get_policy_for_epg db p.tenant p.app p.epg with
    | some old => pyRemoveP (fun q => decide (q = old)) db
    | none => db
  let db2 := if p ∈ db1 then db1 else db1 ++ [p]
  (db2, [ReloadEvent.seed p])

/-- Embeds the new-policy loop of `MultisiteCollector.reload_config`
(lines 985-998), run when `_reload_sites` did not add a local site and a
local site exists: for every new policy, a same-scope old policy is
unregistered if present, then `add_policy` runs (seeding once) and
`handle_existing_endpoints` runs once more. -/
def reload_policies_new_loop :
    List ExportPolicy → List ExportPolicy → List ExportPolicy →
      List ExportPolicy × List ReloadEvent
  | [], _, db => (db, [])
  | np :: rest, oldps, db =>
    let db1 := match oldps.find? (fun op => has_same_epg np op) with
      | some op => pyRemoveP (fun q => decide (q = op)) db
      | none => db
    let r := add_policy db1 np
    let rrest := reload_policies_new_loop rest oldps r.1
    (rrest.1, (r.2 ++ [ReloadEvent.seed np]) ++ rrest.2)

/-- Embeds the deleted-policy loop of `MultisiteCollector.reload_config`
(lines 1001-1013): every old policy without a same-scope counterpart in
the new configuration is unregistered and its remote entries purged. -/
def reload_policies_old_loop :
    List ExportPolicy → List ExportPolicy → List ExportPolicy →
      List ExportPolicy × List ReloadEvent
  | [], _, db => (db, [])
  | op :: rest, newps, db =>
    if newps.any (fun np => has_same_epg op np) then
      reload_policies_old_loop rest newps db
    else
      let r := reload_policies_old_loop rest newps (pyRemoveP (fun q => decide (q = op)) db)
      (r.1, ReloadEvent.purge op :: r.2)

/-- Embeds the policy-diff phase of `MultisiteCollector.reload_config`:
new-policy pass, then deleted-policy pass; returns the final registry and
the emitted seed/purge events in order. -/
def reload_config_policies (oldps newps db : List ExportPolicy) :
    List ExportPolicy × List ReloadEvent :=
  let r1 := reload_policies_new_loop newps oldps db
  let r2 := reload_policies_old_loop oldps newps r1.1
  (r2.1, r1.2 ++ r2.2)

/-! ## The endpoint handler (`EndpointHandler`)

The handler batches endpoint events into a per-remote-site tree of tenant
JSON documents before a push.  The JSON documents are built by the
acitoolkit object layer (`Tenant.get_json` and friends); the tree the
handler manipulates is modelled as typed structures holding exactly the
attributes the handler reads and writes, which is faithful for every
document reachable here since the handler itself creates all of them. -/

/-- An endpoint event as consumed by `EndpointHandler.add_endpoint`: the
key (`mac`), the optional address (`ip`, compared by the source against
the literal string 0.0.0.0 and against None), the deletion flag
(`is_deleted()`), and the (tenant, app, epg) scope obtained through the
`get_parent` chain. -/
structure Endpoint where
  mac : PStr
  ip : Option PStr
  deleted : Bool
  tenant : PStr
  app : PStr
  epg : PStr
deriving DecidableEq, Repr

/-- Modelled from the spec: the instance-profile document built by
`EndpointHandler._create_tenant_with_l3instp` through the acitoolkit
object layer (`OutsideNetwork` with its contract / taboo / interface
relations and attached tag), whose JSON serialization is not part of the
sources under verification.  Per spec section 6 an instance profile
carries the key, an address or a deletion marker, the tag, and the four
binding lists; the name attribute read back by `_remove_queued_endpoint`
is the key. -/
structure InstP where
  name : PStr
  deleted : Bool
  address : Option PStr
  tag : PStr
  provides : List PStr
  consumes : List PStr
  protected_by : List PStr
  consumes_interface : List PStr
deriving DecidableEq, Repr

/-- An l3extOut child of a queued tenant document: its name attribute and
its l3extInstP children (the tree built by the handler contains no
children of other classes, so the class-membership guards of the source
are vacuous here). -/
structure L3OutJson where
  name : PStr
  children : List InstP
deriving DecidableEq, Repr

/-- A queued fvTenant document: its name attribute and its l3extOut
children. -/
structure TenantJson where
  name : PStr
  children : List L3OutJson
deriving DecidableEq, Repr

/-- The handler database: a dictionary keyed by remote site name holding
the list of queued tenant documents, in insertion order (Python
dictionaries preserve insertion order, and keys are only ever inserted
when absent). -/
abbrev HandlerDB := List (PStr × List TenantJson)

/-- Embeds `EndpointHandler._create_tenant_with_l3instp` composed with the
object layer: one tenant holding one l3out holding one instance profile
for the endpoint, carrying either the deletion marker or the address with
a /32 suffix, the four binding lists copied from the interface policy, and
the tag string. -/
def create_l3instp (pol : L3OutPolicy) (ep : Endpoint) (tagStr : PStr) : InstP :=
  { name := ep.mac
    deleted := ep.deleted
    address := if ep.deleted then none else ep.ip.map (fun i => i ++ ps "/32")
    tag := tagStr
    provides := pol.provides
    consumes := pol.consumes
    protected_by := pol.protected_by
    consumes_interface := pol.consumes_interface }

/-- The full tenant document produced for one endpoint and one interface
policy (see `create_l3instp`). -/
def create_tenant_with_l3instp (pol : L3OutPolicy) (ep : Endpoint) (tagStr : PStr) :
    TenantJson :=
  { name := pol.tenant
    children := [{ name := pol.name, children := [create_l3instp pol ep tagStr] }] }

/-- Embeds the innermost loop of `EndpointHandler._remove_queued_endpoint`
over the l3extInstP children of one l3out: the stored name is cut down to
the part after its last dash (`rpartition`) and compared with the endpoint
key; on a match the first structurally equal child is removed from the
list being iterated, which (as in `delete_site_loop`) makes the iterator
skip the element after the removed one. -/
def removeInstpPass (epMac : PStr) (children : List InstP) (i fuel : Nat) : List InstP :=
  match fuel with
  | 0 => children
  | fuel + 1 =>
    match children[i]? with
    | none => children
    | some inst =>
      if rpartLast '-' inst.name = epMac then
        removeInstpPass epMac (pyRemoveP (fun y => decide (y = inst)) children) (i + 1) fuel
      else
        removeInstpPass epMac children (i + 1) fuel

/-- Embeds `EndpointHandler._remove_queued_endpoint`: inside the entry of
the given remote site (no-op when the site is not queued), every tenant
document named after the policy tenant has, in each of its l3outs named
after the policy interface, the children matching the endpoint key
removed. -/
def remove_queued_endpoint (db : HandlerDB) (remote_site : PStr)
    (pol : L3OutPolicy) (ep : Endpoint) : HandlerDB :=
  db.map fun e =>
    if e.1 = remote_site then
      (e.1, e.2.map fun tj =>
        if tj.name = pol.tenant then
          { tj with children := tj.children.map fun lj =>
              if lj.name = pol.name then
                { lj with children := removeInstpPass ep.mac lj.children 0 lj.children.length }
              else lj }
        else tj)
    else e

/-- Updates the first element satisfying `p` (the source loops break at
the first match and mutate that object in place). -/
def mapFirst {α : Type} (p : α → Bool) (f : α → α) : List α → List α
  | [] => []
  | x :: rest => if p x then f x :: rest else x :: mapFirst p f rest

/-- Embeds the l3out / l3instp part of `EndpointHandler._merge_tenant_json`
for one existing tenant document: the new l3out (the single child of the
new document) is appended when no l3out of that name exists; otherwise the
new instance profile is appended to the first matching l3out unless an
equal one is already present. -/
def mergeIntoTenant (t : TenantJson) (nj : TenantJson) : TenantJson :=
  match nj.children with
  | [] => t
  | nl :: _ =>
    let updL3 := fun (l : L3OutJson) =>
      match nl.children with
      | [] => l
      | ni :: _ =>
        if ni ∈ l.children then l else { l with children := l.children ++ [ni] }
    if t.children.any (fun l => decide (l.name = nl.name)) then
      { t with children := mapFirst (fun l => decide (l.name = nl.name)) updL3 t.children }
    else { t with children := t.children ++ [nl] }

/-- Embeds the tenant-level part of `EndpointHandler._merge_tenant_json`:
the new document is appended when no queued tenant of that name exists,
otherwise the first matching tenant absorbs it. -/
def mergeIntoTenants (tjs : List TenantJson) (nj : TenantJson) : List TenantJson :=
  if tjs.any (fun t => decide (t.name = nj.name)) then
    mapFirst (fun t => decide (t.name = nj.name)) (fun t => mergeIntoTenant t nj) tjs
  else tjs ++ [nj]

/-- Embeds `EndpointHandler._merge_tenant_json`: a first endpoint for a
remote site creates the site entry; otherwise the new document is merged
into the existing list of tenant documents. -/
def merge_tenant_json (db : HandlerDB) (remote_site : PStr) (nj : TenantJson) : HandlerDB :=
  match db.find? (fun e => decide (e.1 = remote_site)) with
  | none => db ++ [(remote_site, [nj])]
  | some _ => db.map fun e => if e.1 = remote_site then (e.1, mergeIntoTenants e.2 nj) else e

/-- The parts of `LocalSite` that `EndpointHandler.add_endpoint` reads:
the site name (used in the tag) and the policy registry. -/
structure LocalSiteM where
  name : PStr
  policy_db : List ExportPolicy
deriving Repr

/-- Embeds `EndpointHandler.add_endpoint`: events whose address is the
literal 0.0.0.0, or that have no address and are not deletions, are
dropped; events whose scope has no registered export policy are dropped;
otherwise, for every remote site and interface of the policy, any queued
entry for the key is removed and a fresh document is merged in. -/
def add_endpoint (ep : Endpoint) (ls : LocalSiteM) (db : HandlerDB) : HandlerDB :=
  if ep.ip = some (ps "0.0.0.0") ∨ (ep.ip = none ∧ ¬ ep.deleted) then db
  else
    match get_policy_for_epg ls.policy_db ep.tenant ep.app ep.epg with
    | none => db
    | some policy =>
      policy.remote_sites.foldl (fun db1 rsp =>
        rsp.interfaces.foldl (fun db2 l3out_pol =>
          let db3 := remove_queued_endpoint db2 rsp.name l3out_pol ep
          let tagStr := tagToString ⟨ep.tenant, ep.app, ep.epg, ls.name⟩
          merge_tenant_json db3 rsp.name (create_tenant_with_l3instp l3out_pol ep tagStr))
        db1)
      db

/-- One event burst as processed by
`MultisiteMonitor.handle_endpoint_event`: the drained events are fed into
`add_endpoint` in order, starting from the empty database (a fresh handler
starts empty and a flush clears it). -/
def run_burst (ls : LocalSiteM) (eps : List Endpoint) : HandlerDB :=
  eps.foldl (fun db ep => add_endpoint ep ls db) []

/-- One push attempt recorded by the flush: the remote site, the pushed
tenant document and the success flag returned by the session. -/
structure PushAttempt where
  site : PStr
  doc : TenantJson
  ok : Bool
deriving DecidableEq, Repr

/-- Embeds the loop of `EndpointHandler.push_to_remote_sites`: for each
queued remote site the site object is resolved (`assert` failure when the
collector does not know the site, modelled as `Except.error`), then every
queued tenant document is pushed; a push returning a non-ok response is
only logged and the loop continues. -/
def push_sites_loop (entries : HandlerDB) (get_site : PStr → Option Unit)
    (push_ok : PStr → TenantJson → Bool) : Except Unit (List PushAttempt) :=
  match entries with
  | [] => Except.ok []
  | (site, tjs) :: rest =>
    match get_site site with
    | none => Except.error ()
    | some _ =>
      let attempts := tjs.map (fun tj => { site := site, doc := tj, ok := push_ok site tj : PushAttempt })
      match push_sites_loop rest get_site push_ok with
      | Except.error e => Except.error e
      | Except.ok more => Except.ok (attempts ++ more)

/-- Embeds `EndpointHandler.push_to_remote_sites`: after the loop the
database is reset to empty, whatever the individual push outcomes were
(when the loop aborts on the missing-site assertion the reset is never
reached). -/
def push_to_remote_sites (db : HandlerDB) (get_site : PStr → Option Unit)
    (push_ok : PStr → TenantJson → Bool) :
    Except Unit (List PushAttempt × HandlerDB) :=
  match push_sites_loop db get_site push_ok with
  | Except.error e => Except.error e
  | Except.ok atts => Except.ok (atts, [])

/-! ## Invariants used for the batch-store claims -/

/-- Well-formedness of the children of one queued l3out: instance-profile
names are pairwise distinct (at most one entry per endpoint key) and
contain no dash (names are endpoint keys, and only a dash-free name is
matched back by the `rpartition` of `_remove_queued_endpoint`). -/
def instpsOk (l : List InstP) : Prop :=
  (l.map InstP.name).Nodup ∧ ∀ i ∈ l, '-' ∉ i.name

/-- Well-formedness of the children of one queued tenant document:
distinct l3out names, each well-formed. -/
def l3outsOk (ls : List L3OutJson) : Prop :=
  (ls.map L3OutJson.name).Nodup ∧ ∀ l ∈ ls, instpsOk l.children

/-- Well-formedness of one site entry: distinct tenant names, each
well-formed. -/
def tenantsOk (ts : List TenantJson) : Prop :=
  (ts.map TenantJson.name).Nodup ∧ ∀ t ∈ ts, l3outsOk t.children

/-- Well-formedness of the handler database: distinct site keys, each
entry well-formed. -/
def dbOk (db : HandlerDB) : Prop :=
  (db.map Prod.fst).Nodup ∧ ∀ e ∈ db, tenantsOk e.2

instance : DecidablePred instpsOk := fun _ => by unfold instpsOk; infer_instance
instance : DecidablePred l3outsOk := fun _ => by unfold l3outsOk; infer_instance
instance : DecidablePred tenantsOk := fun _ => by unfold tenantsOk; infer_instance
instance : DecidablePred dbOk := fun _ => by unfold dbOk; infer_instance

/-- No queued instance profile named `mac` remains anywhere under the
given remote site, tenant name and l3out name. -/
def noKeyUnder (db : HandlerDB) (site tname lname mac : PStr) : Prop :=
  ∀ e ∈ db, e.1 = site → ∀ t ∈ e.2, t.name = tname →
    ∀ l ∈ t.children, l.name = lname → ∀ inst ∈ l.children, inst.name ≠ mac

/-- The at-most-one-entry-per-key property claimed for the batch store:
within every queued remote site, tenant names are pairwise distinct,
within every tenant the l3out names are pairwise distinct, and within
every l3out the instance-profile names (endpoint keys) are pairwise
distinct. -/
def uniqueKeys (db : HandlerDB) : Prop :=
  (db.map Prod.fst).Nodup ∧ ∀ e ∈ db, (e.2.map TenantJson.name).Nodup ∧
    ∀ t ∈ e.2, (t.children.map L3OutJson.name).Nodup ∧
      ∀ l ∈ t.children, (l.children.map InstP.name).Nodup

instance : DecidablePred uniqueKeys := fun _ => by unfold uniqueKeys; infer_instance

/-! ## Concrete scenario inputs used by the claim theorems -/

/-- C1 scenario: an export policy whose interface `out` (tenant `RT`) at
remote site `R` provides the two contracts conA and conB. -/
def c1Pol : ExportPolicy :=
  ⟨ps "T", ps "A", ps "G",
    [⟨ps "R", [⟨ps "out", ps "RT", [ps "conA", ps "conB"], [], [], []⟩]⟩]⟩

/-- C2 scenario: the previously loaded site policy of site s1. -/
def c2OldSP : SitePolicy := ⟨ps "s1", ps "1.1.1.1", ps "u", ps "p", ps "True", ps "True"⟩

/-- C2 scenario: the reloaded policy of site s1; only the address
differs. -/
def c2NewSP : SitePolicy := ⟨ps "s1", ps "2.2.2.2", ps "u", ps "p", ps "True", ps "True"⟩

/-- C2 scenario: the runtime site created for the old configuration. -/
def c2Site : Site := ⟨ps "s1", true, ps "1.1.1.1", ps "u", ps "p", true⟩

/-- C5 scenario: one export policy sending scope (T, A, G) to remote site
R through interface `out` of tenant T. -/
def c5P : ExportPolicy :=
  ⟨ps "T", ps "A", ps "G", [⟨ps "R", [⟨ps "out", ps "T", [], [], [], []⟩]⟩]⟩

/-- C5 scenario: the local site with `c5P` registered. -/
def c5ls : LocalSiteM := ⟨ps "L", [c5P]⟩

/-- C5 scenario: endpoint with a colon-style key, carrying an address. -/
def c5e1 : Endpoint := ⟨ps "aa:bb", some (ps "1.2.3.4"), false, ps "T", ps "A", ps "G"⟩

/-- C5 scenario: the same endpoint reported deleted. -/
def c5e2 : Endpoint := ⟨ps "aa:bb", none, true, ps "T", ps "A", ps "G"⟩

/-- C5 counterexample: endpoint whose key contains a dash, carrying an
address. -/
def c5d1 : Endpoint := ⟨ps "aa-bb", some (ps "1.2.3.4"), false, ps "T", ps "A", ps "G"⟩

/-- C5 counterexample: the same dash-keyed endpoint reported deleted. -/
def c5d2 : Endpoint := ⟨ps "aa-bb", none, true, ps "T", ps "A", ps "G"⟩

/-- C6 scenario: an export policy present, unchanged, in both the old and
the new configuration. -/
def c6P : ExportPolicy :=
  ⟨ps "T", ps "A", ps "G", [⟨ps "R", [⟨ps "out", ps "RT", [ps "conA"], [], [], []⟩]⟩]⟩

/-- C9 scenario: a first site policy marked local. -/
def c9spA : SitePolicy := ⟨ps "site1", ps "1.1.1.1", ps "admin", ps "pw", ps "True", ps "False"⟩

/-- C9 scenario: a second, differently named site policy also marked
local. -/
def c9spB : SitePolicy := ⟨ps "site2", ps "2.2.2.2", ps "admin", ps "pw", ps "True", ps "False"⟩

/-! ## Theorems -/

/-- Splitting a separator-free string yields the single field. -/
theorem pySplit_no_sep (sep : Char) (x : PStr) (hx : sep ∉ x) :
    pySplit sep x = [x] := by
  induction x with
  | nil => rfl
  | cons c cs ih =>
    simp only [List.mem_cons, not_or] at hx
    have hc : ¬ (c = sep) := fun h => hx.1 h.symm
    simp only [pySplit, if_neg hc, ih hx.2]

/-- Splitting peels off a separator-free first field. -/
theorem pySplit_append_sep (sep : Char) (x y : PStr) (hx : sep ∉ x) :
    pySplit sep (x ++ sep :: y) = x :: pySplit sep y := by
  induction x with
  | nil => simp [pySplit]
  | cons c cs ih =>
    simp only [List.mem_cons, not_or] at hx
    have hc : ¬ (c = sep) := fun h => hx.1 h.symm
    simp only [List.cons_append, pySplit, if_neg hc, List.append_eq, ih hx.2]

/-- The `:`-split of a formatted tag whose fields are `:`-free, followed by
arbitrary extra content after one more delimiter. -/
theorem pySplit_tagToString_append (t : IntersiteTag) (g : PStr)
    (h1 : ':' ∉ t.tenant_name) (h2 : ':' ∉ t.app_name)
    (h3 : ':' ∉ t.epg_name) (h4 : ':' ∉ t.remote_site) :
    pySplit ':' (tagToString t ++ ':' :: g) =
      ps "isite" :: t.tenant_name :: t.app_name :: t.epg_name ::
        t.remote_site :: pySplit ':' g := by
  unfold tagToString
  simp only [List.cons_append, List.append_assoc]
  rw [pySplit_append_sep ':' (ps "isite") _ (by decide),
    pySplit_append_sep ':' _ _ h1, pySplit_append_sep ':' _ _ h2,
    pySplit_append_sep ':' _ _ h3, pySplit_append_sep ':' _ _ h4]

/-- The `:`-split of a formatted tag whose fields are `:`-free. -/
theorem pySplit_tagToString (t : IntersiteTag)
    (h1 : ':' ∉ t.tenant_name) (h2 : ':' ∉ t.app_name)
    (h3 : ':' ∉ t.epg_name) (h4 : ':' ∉ t.remote_site) :
    pySplit ':' (tagToString t) =
      [ps "isite", t.tenant_name, t.app_name, t.epg_name, t.remote_site] := by
  unfold tagToString
  simp only [List.cons_append, List.append_assoc]
  rw [pySplit_append_sep ':' (ps "isite") _ (by decide),
    pySplit_append_sep ':' _ _ h1, pySplit_append_sep ':' _ _ h2,
    pySplit_append_sep ':' _ _ h3, pySplit_no_sep ':' _ h4]

/--
C3: for every tag 4-tuple whose fields are non-empty strings not containing
the `:` delimiter, parsing the formatted string
(`IntersiteTag.fromstring (str(t))`) yields a tag equal field-by-field to
the original: `parse(format(t)) == t`.
-/
theorem c3_tag_roundtrip (t : IntersiteTag)
    (hne : t.tenant_name ≠ [] ∧ t.app_name ≠ [] ∧
      t.epg_name ≠ [] ∧ t.remote_site ≠ [])
    (h1 : ':' ∉ t.tenant_name) (h2 : ':' ∉ t.app_name)
    (h3 : ':' ∉ t.epg_name) (h4 : ':' ∉ t.remote_site) :
    fromstring (tagToString t) = Except.ok t := by
  have hs := pySplit_tagToString t h1 h2 h3 h4
  unfold fromstring is_intersite_tag
  rw [hs]
  simp [List.getD, ps]

/-- Witness for C3 at a concrete tag. -/
theorem c3_tag_roundtrip_witness :
    fromstring (tagToString ⟨ps "T1", ps "A1", ps "G1", ps "site1"⟩) =
      Except.ok ⟨ps "T1", ps "A1", ps "G1", ps "site1"⟩ :=
  c3_tag_roundtrip ⟨ps "T1", ps "A1", ps "G1", ps "site1"⟩
    (by refine ⟨?_, ?_, ?_, ?_⟩ <;> decide)
    (by decide) (by decide) (by decide) (by decide)

/--
C4 counterexample: the claim states that strings with empty fields are
rejected and that non-matching strings are rejected *without throwing*.
In the code, the string `isite::::` (all four fields empty) is accepted and
parsed into a tag with empty fields, and the string `isite:a:b:c` (only
three fields) makes `fromstring` raise an `AssertionError` (modelled as
`Except.error`).
-/
theorem c4_counterexample :
    fromstring (ps "isite::::") = Except.ok ⟨[], [], [], []⟩ ∧
    fromstring (ps "isite:a:b:c") = Except.error () :=
  ⟨rfl, rfl⟩

/--
C4 amended: `fromstring` accepts any string whose `:`-split has head
`isite` and at least five fields — fields may be empty and trailing extra
content beyond the fourth field is silently dropped (formatting a valid tag
and appending `:` plus arbitrary content still parses back to the tag) —
and on every string not of that loose shape it raises an `AssertionError`
(modelled as `Except.error`) rather than returning a not-a-tag value.
-/
theorem c4_amended (t : IntersiteTag) (g : PStr)
    (h1 : ':' ∉ t.tenant_name) (h2 : ':' ∉ t.app_name)
    (h3 : ':' ∉ t.epg_name) (h4 : ':' ∉ t.remote_site) :
    fromstring (tagToString t ++ ':' :: g) = Except.ok t ∧
    (∀ s : PStr, is_intersite_tag s = false → fromstring s = Except.error ()) := by
  constructor
  · have hs := pySplit_tagToString_append t g h1 h2 h3 h4
    unfold fromstring is_intersite_tag
    rw [hs]
    simp [List.getD, ps]
  · intro s hfail
    simp [fromstring, hfail]

/-- Witness for C4 amended at a concrete tag and concrete extra content. -/
theorem c4_amended_witness :
    fromstring (tagToString ⟨ps "T1", ps "A1", ps "G1", ps "site1"⟩ ++
        ':' :: ps "extra") =
      Except.ok ⟨ps "T1", ps "A1", ps "G1", ps "site1"⟩ :=
  (c4_amended ⟨ps "T1", ps "A1", ps "G1", ps "site1"⟩ (ps "extra")
    (by decide) (by decide) (by decide) (by decide)).1

/--
C1 (code bug): the claim — and the stated intent of the verification pass —
is that a child binding is marked deleted exactly when its name is absent
from the corresponding authorized list, so a name appearing anywhere in
the list is left untouched.  The loops of `ExportPolicy.provides` (and its
three siblings) return from inside the first iteration in both branches,
so only the head of the list is examined: contract conB, authorized in
second position of the provides list of interface (R, out, RT), is
reported unauthorized, its binding is marked deleted in place, and the
entry is flagged dirty (hence pushed back).
-/
theorem c1_authorized_binding_marked_deleted :
    (findL3OutIn c1Pol.remote_sites (ps "R") (ps "out") (ps "RT")).map
        L3OutPolicy.provides = some [ps "conA", ps "conB"] ∧
    c1Pol.provides (ps "R") (ps "out") (ps "RT") (ps "conB") = false ∧
    verifyEntry c1Pol (ps "R") (ps "out") (ps "RT") [RChild.prov (ps "conB") none] =
      ([RChild.prov (ps "conB") (some (ps "deleted"))], true) := by
  refine ⟨rfl, by decide, by decide⟩

/--
C2 (code bug): the claim says a reload in which a site policy keeps its
name but changes a field (here only the address) tears the site down and
recreates it from the new fields, re-seeding if local.  In `_reload_sites`
the outer comparison uses `SitePolicy.__eq__`, which ignores the name, so
the changed policy never matches its old namesake and the dead nested
changed-site branch never runs; the old site is torn down as if deleted,
and the second pass skips the new policy because its *name* is found among
the old ones.  Result: the site list ends empty and `added_local_site`
stays false — the site is neither recreated nor re-seeded.  The first
conjuncts pin the scenario: same name, different address, all other
fields equal, starting from exactly the site that loading the old
configuration creates.
-/
theorem c2_changed_site_dropped :
    c2OldSP.name = c2NewSP.name ∧
    c2OldSP.ip_address ≠ c2NewSP.ip_address ∧
    (c2OldSP.username, c2OldSP.password, c2OldSP.site_local, c2OldSP.use_https) =
      (c2NewSP.username, c2NewSP.password, c2NewSP.site_local, c2NewSP.use_https) ∧
    load_sites [c2OldSP] [] = [c2Site] ∧
    reload_sites [c2OldSP] [c2NewSP] [c2Site] = ([], false) := by
  refine ⟨rfl, by decide, rfl, by decide, by decide⟩

/--
C8: an endpoint whose (tenant, app, epg) scope has no matching export
policy registered with the local site leaves the pending-object tree
unchanged — `add_endpoint` returns before queueing anything for any
remote site.
-/
theorem c8_no_policy_no_pending (ep : Endpoint) (ls : LocalSiteM) (db : HandlerDB)
    (h : get_policy_for_epg ls.policy_db ep.tenant ep.app ep.epg = none) :
    add_endpoint ep ls db = db := by
  unfold add_endpoint
  split
  · rfl
  · rw [h]

/-- Witness for C8: a concrete endpoint against an empty policy registry
and a non-empty pending tree. -/
theorem c8_no_policy_no_pending_witness :
    add_endpoint ⟨ps "aa:bb", some (ps "1.1.1.1"), false, ps "T", ps "A", ps "G"⟩
      ⟨ps "L", []⟩ [(ps "R", [⟨ps "T", []⟩])] = [(ps "R", [⟨ps "T", []⟩])] :=
  c8_no_policy_no_pending _ _ _ (by decide)

/--
C10: an endpoint whose address is the literal string 0.0.0.0 is dropped by
the first guard of `add_endpoint` before the deletion flag is consulted,
so even a deletion event for such an endpoint leaves the pending-object
tree unchanged and no deletion marker is ever queued for any remote site.
-/
theorem c10_zero_address_ignored (ep : Endpoint) (ls : LocalSiteM) (db : HandlerDB)
    (h : ep.ip = some (ps "0.0.0.0")) :
    add_endpoint ep ls db = db := by
  unfold add_endpoint
  rw [if_pos (Or.inl h)]

/-- Witness for C10: a deleted endpoint with address 0.0.0.0 whose scope
*does* have a registered export policy still queues nothing. -/
theorem c10_zero_address_ignored_witness :
    add_endpoint ⟨ps "aa:bb", some (ps "0.0.0.0"), true, ps "T", ps "A", ps "G"⟩
      ⟨ps "L", [⟨ps "T", ps "A", ps "G", [⟨ps "R", [⟨ps "out", ps "T", [], [], [], []⟩]⟩]⟩]⟩
      [] = [] :=
  c10_zero_address_ignored _ _ _ rfl

/--
C6 counterexample: an export policy with the same scope (and here even the
same content) in both the old and the new configuration is *not* left
untouched by the reload policy-diff: the new-policy loop unregisters the
old copy, re-registers the new one and seeds it twice (once inside
`add_policy`, once directly on line 998).
-/
theorem c6_counterexample :
    reload_config_policies [c6P] [c6P] [c6P] =
      ([c6P], [ReloadEvent.seed c6P, ReloadEvent.seed c6P]) := by decide

/-- Every policy of the new configuration is seeded by the new-policy loop
of the reload policy-diff (twice, in fact), regardless of whether the old
configuration contains a same-scope counterpart. -/
theorem seed_mem_reload_new_loop (oldps : List ExportPolicy) (np : ExportPolicy) :
    ∀ (newps : List ExportPolicy) (db : List ExportPolicy), np ∈ newps →
      ReloadEvent.seed np ∈ (reload_policies_new_loop newps oldps db).2 := by
  intro newps
  induction newps with
  | nil => intro db h; cases h
  | cons q rest ih =>
    intro db h
    unfold reload_policies_new_loop
    rcases List.mem_cons.mp h with h | h
    · subst h
      simp [add_policy]
    · simp only [add_policy, List.append_assoc, List.mem_append]
      exact Or.inr (Or.inr (ih _ h))

/--
C6 amended: on a reload where no local site was added or replaced, *every*
policy of the new configuration — including one whose same-scope
counterpart already existed unchanged in the old configuration — is
re-registered and re-seeded: `handle_existing_endpoints` is invoked for it
by the policy-diff (twice: once inside `LocalSite.add_policy` and once
directly); only old policies without a same-scope counterpart are
unregistered and purged.
-/
theorem c6_amended_unchanged_policy_reseeded
    (oldps newps db : List ExportPolicy) (np : ExportPolicy) (hmem : np ∈ newps) :
    ReloadEvent.seed np ∈ (reload_config_policies oldps newps db).2 := by
  unfold reload_config_policies
  simp only [List.mem_append]
  exact Or.inl (seed_mem_reload_new_loop oldps np newps db hmem)

/-- Witness for C6 amended: the unchanged same-scope policy of the
counterexample scenario is indeed re-seeded. -/
theorem c6_amended_witness :
    ReloadEvent.seed c6P ∈ (reload_config_policies [c6P] [c6P] [c6P]).2 :=
  c6_amended_unchanged_policy_reseeded [c6P] [c6P] [c6P] c6P (by decide)

/-- The flush loop of `push_to_remote_sites`, when every queued remote
site resolves, succeeds and attempts one push per queued (site, tenant
document) pair, in order, whatever the individual push outcomes are. -/
theorem push_sites_loop_ok (gs : PStr → Option Unit) (po : PStr → TenantJson → Bool) :
    ∀ db : HandlerDB, (∀ e ∈ db, gs e.1 ≠ none) →
      ∃ atts, push_sites_loop db gs po = Except.ok atts ∧
        atts.map (fun a => (a.site, a.doc)) =
          (db.map (fun e => e.2.map (fun tj => (e.1, tj)))).flatten := by
  intro db
  induction db with
  | nil => intro _; exact ⟨[], rfl, rfl⟩
  | cons e rest ih =>
    intro h
    obtain ⟨site, tjs⟩ := e
    obtain ⟨u, hu⟩ := Option.ne_none_iff_exists'.mp (h ⟨site, tjs⟩ (List.mem_cons_self _ _))
    obtain ⟨atts, hloop, hmap⟩ := ih (fun x hx => h x (List.mem_cons_of_mem _ hx))
    refine ⟨tjs.map (fun tj => { site := site, doc := tj, ok := po site tj }) ++ atts, ?_, ?_⟩
    · unfold push_sites_loop
      rw [hu, hloop]
    · rw [List.map_append, List.map_map, hmap]
      simp

/--
C7: a flush over any set of queued remote sites (each known to the
collector) and tenant documents pushes each tenant document
independently: whatever the push outcomes, one attempt is made for every
queued (site, document) pair in order — a failed push never prevents the
remaining documents and sites from being attempted — and after the flush
the store is empty.
-/
theorem c7_flush_independent_and_clears (db : HandlerDB)
    (get_site : PStr → Option Unit) (push_ok : PStr → TenantJson → Bool)
    (h : ∀ e ∈ db, get_site e.1 ≠ none) :
    ∃ atts : List PushAttempt,
      push_to_remote_sites db get_site push_ok = Except.ok (atts, []) ∧
      atts.map (fun a => (a.site, a.doc)) =
        (db.map (fun e => e.2.map (fun tj => (e.1, tj)))).flatten := by
  obtain ⟨atts, hloop, hmap⟩ := push_sites_loop_ok get_site push_ok db h
  refine ⟨atts, ?_, hmap⟩
  unfold push_to_remote_sites
  rw [hloop]

/-- Witness for C7: two queued sites, every push failing; the flush still
returns ok with both documents attempted and the store cleared. -/
theorem c7_flush_witness :
    ∃ atts : List PushAttempt,
      push_to_remote_sites [(ps "R1", [⟨ps "T1", []⟩]), (ps "R2", [⟨ps "T2", []⟩])]
          (fun _ => some ()) (fun _ _ => false) = Except.ok (atts, []) ∧
      atts.map (fun a => (a.site, a.doc)) =
        (([(ps "R1", [(⟨ps "T1", []⟩ : TenantJson)]), (ps "R2", [⟨ps "T2", []⟩])].map
          (fun e => e.2.map (fun tj => (e.1, tj)))).flatten) :=
  c7_flush_independent_and_clears _ _ _ (fun e _ => by simp)

/--
C9 counterexample: validation imposes only per-field checks, so a
configuration with two (differently named) site policies both marked
local is accepted, and loading it leaves the collector with two local
sites at once.
-/
theorem c9_counterexample :
    intersite_config_valid [c9spA, c9spB] = true ∧
    (load_sites [c9spA, c9spB] []).countP (fun s => s.site_local) = 2 := by
  exact ⟨by decide, by decide⟩

/-- `pyRemoveP` only removes elements. -/
theorem pyRemoveP_sublist {α : Type} (p : α → Bool) (l : List α) :
    List.Sublist (pyRemoveP p l) l := by
  induction l with
  | nil => exact List.Sublist.refl []
  | cons y rest ih =>
    unfold pyRemoveP
    by_cases h : p y
    · rw [if_pos h]
      exact List.Sublist.cons y (List.Sublist.refl rest)
    · rw [if_neg h]
      exact List.Sublist.cons₂ y ih

/-- The `delete_site` loop only removes elements. -/
theorem delete_site_loop_sublist (name : PStr) :
    ∀ (fuel : Nat) (sites : List Site) (i : Nat),
      List.Sublist (delete_site_loop name sites i fuel) sites := by
  intro fuel
  induction fuel with
  | zero => intro sites i; exact List.Sublist.refl _
  | succ fuel ih =>
    intro sites i
    unfold delete_site_loop
    split
    · exact List.Sublist.refl _
    · split
      · exact (ih _ (i + 1)).trans (pyRemoveP_sublist _ sites)
      · exact ih sites (i + 1)

/-- `delete_site` only removes elements. -/
theorem delete_site_sublist (name : PStr) (sites : List Site) :
    List.Sublist (delete_site name sites) sites :=
  delete_site_loop_sublist name sites.length sites 0

/-- Adding the sites of a configuration adds at most one local site per
site policy marked local. -/
theorem load_sites_local_le (sps : List SitePolicy) :
    ∀ st : List Site,
      (load_sites sps st).countP (fun s => s.site_local) ≤
        st.countP (fun s => s.site_local) +
          sps.countP (fun sp => decide (sp.site_local = ps "True")) := by
  induction sps with
  | nil => intro st; simp [load_sites]
  | cons sp rest ih =>
    intro st
    have hstep : (add_site_from_config sp st).countP (fun s => s.site_local) ≤
        st.countP (fun s => s.site_local) +
          (if sp.site_local = ps "True" then 1 else 0) := by
      unfold add_site_from_config add_site
      rw [List.countP_append]
      have hdel := (delete_site_sublist sp.name st).countP_le (fun s => s.site_local)
      simp only [List.countP_cons, List.countP_nil]
      by_cases h : sp.site_local = ps "True" <;> simp [h] <;> omega
    have htl := ih (add_site_from_config sp st)
    unfold load_sites at htl ⊢
    simp only [List.foldl_cons]
    refine le_trans htl ?_
    simp only [List.countP_cons]
    by_cases h : sp.site_local = ps "True" <;> simp [h] at hstep ⊢ <;> omega

/--
C9 amended: the configuration validation does not bound the number of
sites marked local (see the counterexample), so the invariant holds only
for configurations with at most one local-marked site policy: loading the
site policies of such a validated configuration leaves at most one local
site in the collector.
-/
theorem c9_amended_single_local (sps : List SitePolicy)
    (hv : intersite_config_valid sps = true)
    (hone : sps.countP (fun sp => decide (sp.site_local = ps "True")) ≤ 1) :
    (load_sites sps []).countP (fun s => s.site_local) ≤ 1 := by
  have h := load_sites_local_le sps []
  simp only [List.countP_nil, Nat.zero_add] at h
  exact le_trans h hone

/-- Witness for C9 amended: a validated one-local configuration produces
exactly one local site. -/
theorem c9_amended_witness :
    (load_sites [c9spA, ⟨ps "site3", ps "3.3.3.3", ps "admin", ps "pw", ps "False", ps "False"⟩]
      []).countP (fun s => s.site_local) ≤ 1 :=
  c9_amended_single_local _ (by decide) (by decide)

/-- A string without the separator is unchanged by `rpartLast` (the
`rpartition` read-back of `_remove_queued_endpoint` is the identity on
dash-free names). -/
theorem rpartLast_eq_self (sep : Char) (s : PStr) (h : sep ∉ s) :
    rpartLast sep s = s := by
  unfold rpartLast
  rw [List.takeWhile_eq_self_iff.mpr, List.reverse_reverse]
  intro c hc
  simp only [ne_eq, decide_eq_true_eq]
  intro hcs
  exact h (hcs ▸ List.mem_reverse.mp hc)

/-- Removing a present element from a duplicate-free list removes all its
occurrences: the element is absent afterwards. -/
theorem pyRemoveP_not_mem {α : Type} [DecidableEq α] (x : α) :
    ∀ l : List α, l.Nodup → x ∉ pyRemoveP (fun y => decide (y = x)) l := by
  intro l
  induction l with
  | nil => intro _ h; cases h
  | cons y rest ih =>
    intro hnd
    unfold pyRemoveP
    by_cases h : y = x
    · rw [if_pos (by simpa using h)]
      subst h
      exact (List.nodup_cons.mp hnd).1
    · rw [if_neg (by simpa using h)]
      intro hmem
      rcases List.mem_cons.mp hmem with h' | h'
      · exact h h'.symm
      · exact ih (List.nodup_cons.mp hnd).2 h'

/-- The removal pass of `_remove_queued_endpoint` only removes
children. -/
theorem removeInstpPass_sublist (epMac : PStr) :
    ∀ (fuel : Nat) (children : List InstP) (i : Nat),
      List.Sublist (removeInstpPass epMac children i fuel) children := by
  intro fuel
  induction fuel with
  | zero => intro c i; exact List.Sublist.refl _
  | succ fuel ih =>
    intro c i
    unfold removeInstpPass
    split
    · exact List.Sublist.refl _
    · split
      · exact (ih _ (i + 1)).trans (pyRemoveP_sublist _ c)
      · exact ih c (i + 1)

/-- After the removal pass has run over a well-formed children list (names
duplicate-free and dash-free), no child keyed by the endpoint key remains:
the `rpartition` read-back is the identity on dash-free names, and the
single matching child is exactly the one removed (the iterator skip after
a removal can only skip a non-matching child). -/
theorem removeInstpPass_no_key (epMac : PStr) :
    ∀ (fuel : Nat) (children : List InstP) (i : Nat),
      children.length ≤ i + fuel →
      (∀ x ∈ children, '-' ∉ x.name) →
      (children.map InstP.name).Nodup →
      (∀ x ∈ children.take i, x.name ≠ epMac) →
      ∀ x ∈ removeInstpPass epMac children i fuel, x.name ≠ epMac := by
  intro fuel
  induction fuel with
  | zero =>
    intro children i hlen hdash hnd htake x hx
    have hall : children.take i = children := List.take_of_length_le (by omega)
    have hxc : x ∈ children := by simpa [removeInstpPass] using hx
    exact htake x (by rwa [hall])
  | succ fuel ih =>
    intro children i hlen hdash hnd htake x hx
    unfold removeInstpPass at hx
    split at hx
    · rename_i hnone
      have hli : children.length ≤ i := by simpa using hnone
      have hall : children.take i = children := List.take_of_length_le hli
      exact htake x (by rwa [hall])
    · rename_i inst hg
      split at hx
      · rename_i hmatch
        have hinst : inst ∈ children := List.getElem?_mem hg
        have hiname : inst.name = epMac := by
          rwa [rpartLast_eq_self '-' inst.name (hdash inst hinst)] at hmatch
        intro hxname
        have hxc : x ∈ pyRemoveP (fun y => decide (y = inst)) children :=
          (removeInstpPass_sublist epMac fuel _ (i + 1)).subset hx
        have hxmem : x ∈ children := (pyRemoveP_sublist _ children).subset hxc
        have hxeq : x = inst :=
          List.inj_on_of_nodup_map hnd hxmem hinst (by rw [hxname, hiname])
        subst hxeq
        exact pyRemoveP_not_mem x children (List.Nodup.of_map InstP.name hnd) hxc
      · rename_i hmatch
        refine ih children (i + 1) (by omega) hdash hnd ?_ x hx
        intro y hy
        rw [List.take_succ, hg] at hy
        rcases List.mem_append.mp hy with hy | hy
        · exact htake y hy
        · have hyi : y = inst := by simpa using hy
          subst hyi
          intro hyname
          exact hmatch (by
            rw [rpartLast_eq_self '-' y.name (hdash y (List.getElem?_mem hg)), hyname])

/-- Sublists preserve well-formedness of instance-profile children. -/
theorem instpsOk_sublist {l' l : List InstP} (hs : List.Sublist l' l)
    (h : instpsOk l) : instpsOk l' :=
  ⟨h.1.sublist (hs.map InstP.name), fun i hi => h.2 i (hs.subset hi)⟩

/-- `_remove_queued_endpoint` does not change the set of queued remote
site keys. -/
theorem remove_queued_fst (db : HandlerDB) (s : PStr) (pol : L3OutPolicy) (ep : Endpoint) :
    (remove_queued_endpoint db s pol ep).map Prod.fst = db.map Prod.fst := by
  unfold remove_queued_endpoint
  rw [List.map_map]
  refine List.map_congr_left ?_
  intro e _
  by_cases h : e.1 = s <;> simp [h]

/-- The l3out-level update of `_remove_queued_endpoint` preserves
well-formedness. -/
theorem l3outsOk_map_remove (mac lname : PStr) (ls : List L3OutJson)
    (h : l3outsOk ls) :
    l3outsOk (ls.map fun lj =>
      if lj.name = lname then
        { lj with children := removeInstpPass mac lj.children 0 lj.children.length }
      else lj) := by
  obtain ⟨hnames, hels⟩ := h
  constructor
  · rw [List.map_map]
    have : (ls.map fun lj => L3OutJson.name (if lj.name = lname then
        { lj with children := removeInstpPass mac lj.children 0 lj.children.length }
        else lj)) = ls.map L3OutJson.name := by
      refine List.map_congr_left ?_
      intro lj _
      by_cases hlj : lj.name = lname <;> simp [hlj]
    rw [show (L3OutJson.name ∘ fun lj => if lj.name = lname then
      { lj with children := removeInstpPass mac lj.children 0 lj.children.length }
      else lj) = fun lj => L3OutJson.name (if lj.name = lname then
      { lj with children := removeInstpPass mac lj.children 0 lj.children.length }
      else lj) from rfl, this]
    exact hnames
  · intro l hl
    obtain ⟨l0, hl0, rfl⟩ := List.mem_map.mp hl
    by_cases hlj : l0.name = lname
    · simp only [if_pos hlj]
      exact instpsOk_sublist (removeInstpPass_sublist mac l0.children.length l0.children 0)
        (hels l0 hl0)
    · simp only [if_neg hlj]
      exact hels l0 hl0

/-- The tenant-level update of `_remove_queued_endpoint` preserves
well-formedness. -/
theorem tenantsOk_map_remove (mac tname lname : PStr) (ts : List TenantJson)
    (h : tenantsOk ts) :
    tenantsOk (ts.map fun tj =>
      if tj.name = tname then
        { tj with children := tj.children.map fun lj =>
            if lj.name = lname then
              { lj with children := removeInstpPass mac lj.children 0 lj.children.length }
            else lj }
      else tj) := by
  obtain ⟨hnames, hels⟩ := h
  constructor
  · rw [List.map_map]
    have : ∀ tj ∈ ts, (TenantJson.name ∘ fun tj =>
        if tj.name = tname then
          { tj with children := tj.children.map fun lj =>
              if lj.name = lname then
                { lj with children := removeInstpPass mac lj.children 0 lj.children.length }
              else lj }
        else tj) tj = TenantJson.name tj := by
      intro tj _
      by_cases htj : tj.name = tname <;> simp [htj]
    rw [List.map_congr_left this]
    exact hnames
  · intro t ht
    obtain ⟨t0, ht0, rfl⟩ := List.mem_map.mp ht
    by_cases htj : t0.name = tname
    · simp only [if_pos htj]
      exact l3outsOk_map_remove mac lname t0.children (hels t0 ht0)
    · simp only [if_neg htj]
      exact hels t0 ht0

/-- `_remove_queued_endpoint` preserves well-formedness of the pending
tree. -/
theorem remove_queued_dbOk (db : HandlerDB) (s : PStr) (pol : L3OutPolicy)
    (ep : Endpoint) (h : dbOk db) :
    dbOk (remove_queued_endpoint db s pol ep) := by
  obtain ⟨hkeys, hentries⟩ := h
  refine ⟨by rw [remove_queued_fst]; exact hkeys, ?_⟩
  intro e' he'
  unfold remove_queued_endpoint at he'
  obtain ⟨e, he, rfl⟩ := List.mem_map.mp he'
  by_cases hes : e.1 = s
  · simp only [if_pos hes]
    exact tenantsOk_map_remove ep.mac pol.tenant pol.name e.2 (hentries e he)
  · simp only [if_neg hes]
    exact hentries e he

/-- After `_remove_queued_endpoint`, no child keyed by the endpoint key is
queued under the removed (site, tenant, l3out) path. -/
theorem remove_queued_cleans (db : HandlerDB) (s : PStr) (pol : L3OutPolicy)
    (ep : Endpoint) (h : dbOk db) :
    noKeyUnder (remove_queued_endpoint db s pol ep) s pol.tenant pol.name ep.mac := by
  obtain ⟨-, hentries⟩ := h
  intro e' he' hes t ht htn l hl hln inst hi
  unfold remove_queued_endpoint at he'
  obtain ⟨e, he, rfl⟩ := List.mem_map.mp he'
  by_cases h1 : e.1 = s
  · simp only [if_pos h1] at ht
    obtain ⟨t0, ht0, rfl⟩ := List.mem_map.mp ht
    by_cases h2 : t0.name = pol.tenant
    · simp only [if_pos h2] at htn hl ⊢
      obtain ⟨l0, hl0, rfl⟩ := List.mem_map.mp hl
      by_cases h3 : l0.name = pol.name
      · simp only [if_pos h3] at hln hi ⊢
        obtain ⟨hinod, hidash⟩ := (hentries e he).2 t0 ht0 |>.2 l0 hl0
        exact removeInstpPass_no_key ep.mac l0.children.length l0.children 0
          (by omega) hidash hinod (by simp) inst hi
      · simp only [if_neg h3] at hln
        exact absurd hln h3
    · simp only [if_neg h2] at htn
      exact absurd htn h2
  · simp only [if_neg h1] at hes
    exact absurd hes h1

/-- `mapFirst` preserves any projection unchanged by the update. -/
theorem mapFirst_map_eq {α β : Type} (p : α → Bool) (f : α → α) (g : α → β)
    (hg : ∀ x, g (f x) = g x) :
    ∀ l : List α, (mapFirst p f l).map g = l.map g := by
  intro l
  induction l with
  | nil => rfl
  | cons x rest ih =>
    unfold mapFirst
    by_cases h : p x
    · rw [if_pos h]
      simp [hg]
    · rw [if_neg h]
      simp [ih]

/-- An element of `mapFirst p f l` is an element of `l` or the image of a
matching element of `l`. -/
theorem mapFirst_mem {α : Type} (p : α → Bool) (f : α → α) :
    ∀ (l : List α) (x : α), x ∈ mapFirst p f l →
      x ∈ l ∨ ∃ y ∈ l, p y = true ∧ x = f y := by
  intro l
  induction l with
  | nil => intro x h; cases h
  | cons z rest ih =>
    intro x h
    unfold mapFirst at h
    by_cases hz : p z
    · rw [if_pos hz] at h
      rcases List.mem_cons.mp h with h | h
      · exact Or.inr ⟨z, List.mem_cons_self z rest, hz, h⟩
      · exact Or.inl (List.mem_cons_of_mem _ h)
    · rw [if_neg hz] at h
      rcases List.mem_cons.mp h with h | h
      · exact Or.inl (h ▸ List.mem_cons_self z rest)
      · rcases ih x h with h' | ⟨y, hy, hpy, hxy⟩
        · exact Or.inl (List.mem_cons_of_mem _ h')
        · exact Or.inr ⟨y, List.mem_cons_of_mem _ hy, hpy, hxy⟩

/-- Merging the freshly created document into one tenant preserves
well-formedness, provided no child keyed by the endpoint key is queued
under the policy interface inside this tenant. -/
theorem mergeIntoTenant_ok (pol : L3OutPolicy) (ep : Endpoint) (tagStr : PStr)
    (t : TenantJson) (h : l3outsOk t.children)
    (hclean : ∀ l ∈ t.children, l.name = pol.name →
      ∀ i ∈ l.children, i.name ≠ ep.mac)
    (hmac : '-' ∉ ep.mac) :
    l3outsOk (mergeIntoTenant t (create_tenant_with_l3instp pol ep tagStr)).children := by
  obtain ⟨hnames, hels⟩ := h
  unfold mergeIntoTenant create_tenant_with_l3instp
  dsimp only
  by_cases hany : t.children.any (fun l => decide (l.name = pol.name))
  · rw [if_pos hany]
    dsimp only
    constructor
    · rw [mapFirst_map_eq _ _ L3OutJson.name]
      · exact hnames
      · intro l
        by_cases hnl : (create_l3instp pol ep tagStr) ∈ l.children <;>
          simp [hnl]
    · intro l hl
      rcases mapFirst_mem _ _ t.children l hl with hl' | ⟨l0, hl0, hpl0, rfl⟩
      · exact hels l hl'
      · have hl0name : l0.name = pol.name := by simpa using hpl0
        by_cases hin : (create_l3instp pol ep tagStr) ∈ l0.children
        · simp only [if_pos hin]
          exact hels l0 hl0
        · simp only [if_neg hin]
          obtain ⟨hn0, hd0⟩ := hels l0 hl0
          constructor
          · rw [List.map_append]
            have hnotin : ep.mac ∉ l0.children.map InstP.name := by
              intro hmem
              obtain ⟨i0, hi0, hi0n⟩ := List.mem_map.mp hmem
              exact hclean l0 hl0 hl0name i0 hi0 hi0n
            simp [List.nodup_append, hn0, create_l3instp, hnotin]
          · intro i hi
            rcases List.mem_append.mp hi with hi | hi
            · exact hd0 i hi
            · have : i = create_l3instp pol ep tagStr := by simpa using hi
              subst this
              simpa [create_l3instp] using hmac
  · rw [if_neg hany]
    dsimp only
    constructor
    · rw [List.map_append]
      have hnotin : pol.name ∉ t.children.map L3OutJson.name := by
        intro hmem
        obtain ⟨l0, hl0, hl0n⟩ := List.mem_map.mp hmem
        have := (List.any_eq_false.mp (Bool.of_not_eq_true hany)) l0 hl0
        simp [hl0n] at this
      simp [List.nodup_append, hnames, hnotin]
    · intro l hl
      rcases List.mem_append.mp hl with hl | hl
      · exact hels l hl
      · have : l = { name := pol.name, children := [create_l3instp pol ep tagStr] } := by
          simpa using hl
        subst this
        refine ⟨by simp, ?_⟩
        intro i hi
        have : i = create_l3instp pol ep tagStr := by simpa using hi
        subst this
        simpa [create_l3instp] using hmac

/-- `mergeIntoTenant` keeps the tenant name. -/
theorem mergeIntoTenant_name (t nj : TenantJson) :
    (mergeIntoTenant t nj).name = t.name := by
  unfold mergeIntoTenant
  split
  · rfl
  · dsimp only
    split <;> rfl

/-- Merging the freshly created document into the tenant list of one
remote site preserves well-formedness, provided no child keyed by the
endpoint key is queued under the policy (tenant, interface) path. -/
theorem mergeIntoTenants_ok (pol : L3OutPolicy) (ep : Endpoint) (tagStr : PStr)
    (ts : List TenantJson) (h : tenantsOk ts)
    (hclean : ∀ t ∈ ts, t.name = pol.tenant → ∀ l ∈ t.children, l.name = pol.name →
      ∀ i ∈ l.children, i.name ≠ ep.mac)
    (hmac : '-' ∉ ep.mac) :
    tenantsOk (mergeIntoTenants ts (create_tenant_with_l3instp pol ep tagStr)) := by
  obtain ⟨hnames, hels⟩ := h
  unfold mergeIntoTenants
  by_cases hany : ts.any (fun t => decide (t.name = (create_tenant_with_l3instp pol ep tagStr).name))
  · rw [if_pos hany]
    constructor
    · rw [mapFirst_map_eq _ _ TenantJson.name]
      · exact hnames
      · intro t
        exact mergeIntoTenant_name t _
    · intro t ht
      rcases mapFirst_mem _ _ ts t ht with ht' | ⟨t0, ht0, hpt0, rfl⟩
      · exact hels t ht'
      · have ht0name : t0.name = pol.tenant := by
          simpa [create_tenant_with_l3instp] using hpt0
        exact mergeIntoTenant_ok pol ep tagStr t0 (hels t0 ht0)
          (hclean t0 ht0 ht0name) hmac
  · rw [if_neg hany]
    constructor
    · rw [List.map_append]
      have hnotin : (create_tenant_with_l3instp pol ep tagStr).name ∉
          ts.map TenantJson.name := by
        intro hmem
        obtain ⟨t0, ht0, ht0n⟩ := List.mem_map.mp hmem
        have := (List.any_eq_false.mp (Bool.of_not_eq_true hany)) t0 ht0
        simp [ht0n] at this
      simp only [List.map_cons, List.map_nil]
      simp [List.nodup_append, hnames, hnotin]
    · intro t ht
      rcases List.mem_append.mp ht with ht | ht
      · exact hels t ht
      · have : t = create_tenant_with_l3instp pol ep tagStr := by simpa using ht
        subst this
        unfold create_tenant_with_l3instp
        refine ⟨by simp, ?_⟩
        intro l hl
        have : l = { name := pol.name, children := [create_l3instp pol ep tagStr] } := by
          simpa using hl
        subst this
        refine ⟨by simp, ?_⟩
        intro i hi
        have : i = create_l3instp pol ep tagStr := by simpa using hi
        subst this
        simpa [create_l3instp] using hmac

/-- `_merge_tenant_json` of the freshly created document preserves
well-formedness of the pending tree, provided the key was removed first
(supersede semantics). -/
theorem merge_dbOk (db : HandlerDB) (s : PStr) (pol : L3OutPolicy) (ep : Endpoint)
    (tagStr : PStr) (hok : dbOk db)
    (hclean : noKeyUnder db s pol.tenant pol.name ep.mac)
    (hmac : '-' ∉ ep.mac) :
    dbOk (merge_tenant_json db s (create_tenant_with_l3instp pol ep tagStr)) := by
  obtain ⟨hkeys, hentries⟩ := hok
  unfold merge_tenant_json
  cases hf : db.find? (fun e => decide (e.1 = s)) with
  | none =>
    constructor
    · rw [List.map_append]
      have hnotin : s ∉ db.map Prod.fst := by
        intro hmem
        obtain ⟨e0, he0, he0n⟩ := List.mem_map.mp hmem
        have := List.find?_eq_none.mp hf e0 he0
        simp [he0n] at this
      simp [List.nodup_append, hkeys, hnotin]
    · intro e he
      rcases List.mem_append.mp he with he | he
      · exact hentries e he
      · have : e = (s, [create_tenant_with_l3instp pol ep tagStr]) := by simpa using he
        subst this
        dsimp only
        unfold create_tenant_with_l3instp
        refine ⟨by simp, ?_⟩
        intro t ht
        have : t = create_tenant_with_l3instp pol ep tagStr := by
          simpa [create_tenant_with_l3instp] using ht
        subst this
        unfold create_tenant_with_l3instp
        refine ⟨by simp, ?_⟩
        intro l hl
        have : l = { name := pol.name, children := [create_l3instp pol ep tagStr] } := by
          simpa using hl
        subst this
        refine ⟨by simp, ?_⟩
        intro i hi
        have : i = create_l3instp pol ep tagStr := by simpa using hi
        subst this
        simpa [create_l3instp] using hmac
  | some found =>
    constructor
    · rw [List.map_map]
      have : ∀ e ∈ db, (Prod.fst ∘ fun e =>
          if e.1 = s then (e.1, mergeIntoTenants e.2 (create_tenant_with_l3instp pol ep tagStr))
          else e) e = Prod.fst e := by
        intro e _
        by_cases h : e.1 = s <;> simp [h]
      rw [List.map_congr_left this]
      exact hkeys
    · intro e' he'
      obtain ⟨e, he, rfl⟩ := List.mem_map.mp he'
      by_cases hes : e.1 = s
      · simp only [if_pos hes]
        exact mergeIntoTenants_ok pol ep tagStr e.2 (hentries e he)
          (fun t ht htn l hl hln i hi => hclean e he hes t ht htn l hl hln i hi) hmac
      · simp only [if_neg hes]
        exact hentries e he

/-- One (remote site, interface policy) step of `add_endpoint` — remove
then merge — preserves well-formedness of the pending tree. -/
theorem step_dbOk (db : HandlerDB) (rspName : PStr) (pol : L3OutPolicy)
    (ep : Endpoint) (tagStr : PStr) (h : dbOk db) (hmac : '-' ∉ ep.mac) :
    dbOk (merge_tenant_json (remove_queued_endpoint db rspName pol ep) rspName
      (create_tenant_with_l3instp pol ep tagStr)) :=
  merge_dbOk _ _ _ _ _ (remove_queued_dbOk db rspName pol ep h)
    (remove_queued_cleans db rspName pol ep h) hmac

/-- A fold preserves a predicate preserved by each step taken from the
folded list. -/
theorem foldl_preserves_mem {α β : Type} (P : α → Prop) (f : α → β → α) :
    ∀ (l : List β) (a : α), P a → (∀ x b, b ∈ l → P x → P (f x b)) →
      P (l.foldl f a) := by
  intro l
  induction l with
  | nil => intro a ha _; exact ha
  | cons b rest ih =>
    intro a ha hf
    exact ih _ (hf a b (List.mem_cons_self b rest) ha)
      (fun x c hc hx => hf x c (List.mem_cons_of_mem _ hc) hx)

/-- `add_endpoint` preserves well-formedness of the pending tree for
endpoints whose key contains no dash. -/
theorem add_endpoint_dbOk (ep : Endpoint) (ls : LocalSiteM) (db : HandlerDB)
    (h : dbOk db) (hmac : '-' ∉ ep.mac) :
    dbOk (add_endpoint ep ls db) := by
  unfold add_endpoint
  split
  · exact h
  · cases hp : get_policy_for_epg ls.policy_db ep.tenant ep.app ep.epg with
    | none => exact h
    | some policy =>
      refine foldl_preserves_mem dbOk _ policy.remote_sites db h ?_
      intro db1 rsp _ h1
      refine foldl_preserves_mem dbOk _ rsp.interfaces db1 h1 ?_
      intro db2 l3out_pol _ h2
      exact step_dbOk db2 rsp.name l3out_pol ep _ h2 hmac

/-- The empty pending tree is well-formed. -/
theorem dbOk_nil : dbOk [] := by
  refine ⟨List.nodup_nil, ?_⟩
  intro e he
  cases he

/-- A whole burst preserves well-formedness when every event key is
dash-free. -/
theorem run_burst_dbOk (ls : LocalSiteM) (eps : List Endpoint)
    (hmac : ∀ ep ∈ eps, '-' ∉ ep.mac) : dbOk (run_burst ls eps) := by
  unfold run_burst
  refine foldl_preserves_mem dbOk _ eps [] dbOk_nil ?_
  intro db ep hep hdb
  exact add_endpoint_dbOk ep ls db hdb (hmac ep hep)

/-- Well-formedness implies the claimed at-most-one-entry-per-key
property. -/
theorem dbOk_uniqueKeys {db : HandlerDB} (h : dbOk db) : uniqueKeys db := by
  obtain ⟨hk, he⟩ := h
  refine ⟨hk, ?_⟩
  intro e hee
  obtain ⟨ht, hts⟩ := he e hee
  refine ⟨ht, ?_⟩
  intro t htt
  obtain ⟨hl, hls⟩ := hts t htt
  refine ⟨hl, ?_⟩
  intro l hll
  exact (hls l hll).1

/--
C5 counterexample: the claimed invariant quantifies over every endpoint
key, but for a key containing a dash the de-queue step of
`_remove_queued_endpoint` reads the stored name back through
`rpartition` and so never matches the entry it itself stored under the
full key: adding endpoint aa-bb with an address and then adding it marked
deleted leaves *two* queued instance profiles for the same key under the
same site, tenant and interface — not one entry carrying the deletion
marker.
-/
theorem c5_counterexample :
    ¬ uniqueKeys (run_burst c5ls [c5d1, c5d2]) ∧
    run_burst c5ls [c5d1, c5d2] =
      [(ps "R", [⟨ps "T", [⟨ps "out",
        [⟨ps "aa-bb", false, some (ps "1.2.3.4/32"), ps "isite:T:A:G:L", [], [], [], []⟩,
         ⟨ps "aa-bb", true, none, ps "isite:T:A:G:L", [], [], [], []⟩]⟩]⟩])] := by
  exact ⟨by decide, by decide⟩

/--
C5 amended: for bursts whose endpoint keys contain no dash (in particular
for all colon-delimited hardware addresses), the pending tree keeps at
most one instance-profile entry per endpoint key per interface per tenant
per remote site at every point before the flush; and the surviving entry
reflects the latest add for the key: adding an endpoint with an address
and then adding the same endpoint marked deleted yields exactly one entry
carrying the deletion marker.
-/
theorem c5_amended_supersede (ls : LocalSiteM) (eps : List Endpoint)
    (hmac : ∀ ep ∈ eps, '-' ∉ ep.mac) :
    uniqueKeys (run_burst ls eps) ∧
    run_burst c5ls [c5e1, c5e2] =
      [(ps "R", [⟨ps "T", [⟨ps "out",
        [⟨ps "aa:bb", true, none, ps "isite:T:A:G:L", [], [], [], []⟩]⟩]⟩])] :=
  ⟨dbOk_uniqueKeys (run_burst_dbOk ls eps hmac), by decide⟩

/-- Witness for C5 amended: the colon-keyed add-then-delete burst keeps
unique keys and ends with the single deleted entry. -/
theorem c5_amended_witness :
    uniqueKeys (run_burst c5ls [c5e1, c5e2]) ∧
    run_burst c5ls [c5e1, c5e2] =
      [(ps "R", [⟨ps "T", [⟨ps "out",
        [⟨ps "aa:bb", true, none, ps "isite:T:A:G:L", [], [], [], []⟩]⟩]⟩])] :=
  c5_amended_supersede c5ls [c5e1, c5e2] (by decide)

end Intersite

namespace Intersite

example : pySplit ':' (ps "a:b") = [ps "a", ps "b"] := by decide
example : pySplit ':' (ps "") = [ps ""] := by decide
example : pySplit ':' (ps "isite:a:b:c:d") =
    [ps "isite", ps "a", ps "b", ps "c", ps "d"] := by decide
example : is_intersite_tag (ps "isite::::") = true := by decide
example : is_intersite_tag (ps "isite:a:b:c") = false := by decide
example : rpartLast '-' (ps "aa-bb") = ps "bb" := by decide
example : rpartLast '-' (ps "aabb") = ps "aabb" := by decide
example :
    fromstring (tagToString ⟨ps "t", ps "a", ps "e", ps "r"⟩) =
      Except.ok ⟨ps "t", ps "a", ps "e", ps "r"⟩ := by rfl

end Intersite
